import Mathlib

/-
Verification development for the distributo task-distribution runtime.

The coordinator (CoordinatorTaskDistributor) is embedded as a pure step
function over an explicit state: the pending task queue (`tasks`), the
worker registry (`workers`), the per-task status table (`taskStatuses`),
the handled-results map (`taskStatusHandled`), and a flag recording
whether the coordinator's serialized promise chain (`promiseTrain`) has
been rejected (`poisoned`).  JavaScript `Map`s are modelled as
association lists with JS `Map.set` semantics (update in place, append
new keys at the end).  The worker client (EnhancedWorkerClient) is
embedded as a handler from incoming events to emitted messages, each
tagged with the `setTimeout` delay it is emitted under (0 = immediate).
-/

namespace Distributo

/-- A task as the scheduler sees it: its identifier and the type used for
capability matching.  The execution payload (files, entry point, env, ...)
is opaque to the coordinator and omitted. -/
structure DynamicTask where
  taskId : String
  taskType : String
  deriving DecidableEq, Repr

/-- The status field of a TaskStatus record. -/
inductive TStatus where
  | pending
  | installed
  | failed
  | completed
  deriving DecidableEq, Repr

/-- Tracking record per task identifier, as in the TaskStatus interface. -/
structure TaskStatus where
  task : DynamicTask
  assignedTo : String
  status : TStatus
  deriving DecidableEq, Repr

/-- Coordinator-side record of a connected worker, as in the WorkerInfo
interface. -/
structure WorkerInfo where
  socketId : String
  taskTypes : List String
  isReady : Bool
  deriving DecidableEq, Repr

/-- A JavaScript Map key: either a string, or an object reference compared
by identity (SameValueZero on objects is reference equality). -/
inductive JsKey where
  | str (s : String)
  | obj (ref : Nat)
  deriving DecidableEq, Repr

/-- The payload of a taskCompleted event.  Each delivered event carries a
fresh object; `ref` records its JavaScript object identity. -/
structure TaskResult where
  ref : Nat
  taskId : String
  deriving DecidableEq, Repr

/-- JS Map.get: first (and, absent duplicate keys, only) binding of a key. -/
def mapGet {κ α : Type} [DecidableEq κ] : List (κ × α) → κ → Option α
  | [], _ => none
  | (k1, v1) :: rest, k => if k1 = k then some v1 else mapGet rest k

/-- JS Map.set: update an existing key in place (keeping its insertion
position), or append a new binding at the end. -/
def mapSet {κ α : Type} [DecidableEq κ] : List (κ × α) → κ → α → List (κ × α)
  | [], k, v => [(k, v)]
  | (k1, v1) :: rest, k, v =>
    if k1 = k then (k, v) :: rest else (k1, v1) :: mapSet rest k v

/-- JS Map.delete. -/
def mapDelete {κ α : Type} [DecidableEq κ] : List (κ × α) → κ → List (κ × α)
  | [], _ => []
  | (k1, v1) :: rest, k => if k1 = k then rest else (k1, v1) :: mapDelete rest k

/-- Coordinator state.  `observed` records the argument of every `onResult`
invocation; `genCalls` counts task-generator invocations; `poisoned` is true
once the shared promiseTrain has been rejected. -/
structure CoordState where
  tasks : List DynamicTask
  workers : List (String × WorkerInfo)
  taskStatuses : List (String × TaskStatus)
  taskStatusHandled : List (JsKey × Bool)
  genCalls : Nat
  poisoned : Bool
  observed : List (List TaskResult)
  deriving DecidableEq, Repr

/-- The coordinator's state after construction. -/
def initCoord : CoordState :=
  { tasks := [], workers := [], taskStatuses := [], taskStatusHandled := [],
    genCalls := 0, poisoned := false, observed := [] }

/-- The configured task generator, if any.  A call may produce tasks or
throw (`Except.error`); successive calls are fed the call counter so that
different invocations may behave differently. -/
def TaskGen : Type := Option (Nat → Except String (List DynamicTask))

/-- Messages the coordinator emits to a worker socket. -/
inductive CEmit where
  | assignTask (sid : String) (task : DynamicTask)
  | noTask (sid : String)
  | requestTaskPing (sid : String)
  deriving DecidableEq, Repr

/-- Events the coordinator reacts to.  The socket events carry the id of
the emitting socket; `addTask` is the appendTask / HTTP ingestion path. -/
inductive CEvent where
  | connect (sid : String)
  | registerCapabilities (sid : String) (taskTypes : List String)
  | notifyReady (sid : String) (taskTypes : List String)
  | requestTask (sid : String)
  | taskCompleted (sid : String) (data : TaskResult)
  | installationStatus (sid : String) (taskId : String) (success : Bool)
  | disconnect (sid : String)
  | addTask (task : DynamicTask)
  deriving DecidableEq, Repr

/-- Register fresh generator output in the status table, as the loop in
gooseTasks does: each new task gets a pending, unassigned TaskStatus. -/
def registerPending (sts : List (String × TaskStatus)) :
    List DynamicTask → List (String × TaskStatus)
  | [] => sts
  | t :: rest =>
    registerPending (mapSet sts t.taskId ⟨t, "", TStatus.pending⟩) rest

/-- gooseTasks: call the configured generator (if any) and append its
output to the queue, registering pending statuses.  The boolean is false
when the generator threw; the throw is not caught anywhere in the source. -/
def gooseTasks (gen : TaskGen) (st : CoordState) : CoordState × Bool :=
  match gen with
  | none => (st, true)
  | some g =>
    match g st.genCalls with
    | Except.error _ => ({ st with genCalls := st.genCalls + 1 }, false)
    | Except.ok newTasks =>
      if newTasks.isEmpty then ({ st with genCalls := st.genCalls + 1 }, true)
      else
        ({ st with
            tasks := st.tasks ++ newTasks,
            taskStatuses := registerPending st.taskStatuses newTasks,
            genCalls := st.genCalls + 1 }, true)

/-- The findIndex predicate of the requestTask handler: the task's type is
among the worker's capabilities and its tracked status is pending. -/
def suitable (caps : List String) (sts : List (String × TaskStatus))
    (t : DynamicTask) : Bool :=
  caps.contains t.taskType &&
    match mapGet sts t.taskId with
    | some ts => decide (ts.status = TStatus.pending)
    | none => false

/-- Array.prototype.findIndex, with -1 rendered as none. -/
def findIndex (p : DynamicTask → Bool) : List DynamicTask → Option Nat
  | [] => none
  | t :: rest => if p t then some 0 else (findIndex p rest).map (· + 1)

/-- Reading the element splice(i, 1) removes. -/
def elemAt : List DynamicTask → Nat → Option DynamicTask
  | [], _ => none
  | t :: _, 0 => some t
  | _ :: rest, Nat.succ i => elemAt rest i

/-- The list left behind by splice(i, 1). -/
def spliceOut : List DynamicTask → Nat → List DynamicTask
  | [], _ => []
  | _ :: rest, 0 => rest
  | t :: rest, Nat.succ i => t :: spliceOut rest i

/-- The requestTask handler body (the callback chained on promiseTrain).
If the promiseTrain is already rejected the callback never runs; if the
generator throws inside gooseTasks the rejection propagates and poisons
the promiseTrain, and nothing is emitted. -/
def handleRequestTask (gen : TaskGen) (st : CoordState) (sid : String) :
    CoordState × List CEmit :=
  if st.poisoned then (st, [])
  else
    match mapGet st.workers sid with
    | none => (st, [CEmit.noTask sid])
    | some w =>
      if !w.isReady || w.taskTypes.isEmpty then (st, [CEmit.noTask sid])
      else
        let refill := if st.tasks.isEmpty then gooseTasks gen st else (st, true)
        let st1 := refill.1
        if !refill.2 then ({ st1 with poisoned := true }, [])
        else
          match findIndex (suitable w.taskTypes st1.taskStatuses) st1.tasks with
          | none => (st1, [CEmit.noTask sid])
          | some i =>
            match elemAt st1.tasks i with
            | none => (st1, [CEmit.noTask sid])
            | some t =>
              ({ st1 with
                  tasks := spliceOut st1.tasks i,
                  taskStatuses :=
                    mapSet st1.taskStatuses t.taskId ⟨t, sid, TStatus.installed⟩ },
               [CEmit.assignTask sid t])

/-- The filter predicate of handleTaskResults: the probe key handed to
taskStatusHandled.get is the result object itself (compared by object
identity), not its taskId string. -/
def notYetHandled (handled : List (JsKey × Bool)) (x : TaskResult) : Bool :=
  !((mapGet handled (JsKey.obj x.ref)).getD false)

/-- The marking loop of handleTaskResults: each delivered taskId string is
set in the handled map. -/
def markHandled (handled : List (JsKey × Bool)) :
    List TaskResult → List (JsKey × Bool)
  | [] => handled
  | d :: rest => markHandled (mapSet handled (JsKey.str d.taskId) true) rest

/-- handleTaskResults: invoke onResult on the filtered list (recorded in
`observed`), then mark every delivered taskId handled. -/
def handleTaskResults (st : CoordState) (results : List TaskResult) :
    CoordState :=
  { st with
      observed := st.observed ++ [results.filter (notYetHandled st.taskStatusHandled)],
      taskStatusHandled := markHandled st.taskStatusHandled results }

/-- The taskCompleted handler: set the tracked status (if any) to
completed, forward the single result to handleResults, and emit a
requestTask message back at the socket. -/
def handleTaskCompleted (st : CoordState) (sid : String) (d : TaskResult) :
    CoordState × List CEmit :=
  let st1 :=
    match mapGet st.taskStatuses d.taskId with
    | some ts =>
      { st with
          taskStatuses :=
            mapSet st.taskStatuses d.taskId { ts with status := TStatus.completed } }
    | none => st
  (handleTaskResults st1 [d], [CEmit.requestTaskPing sid])

/-- The installationStatus handler: success sets the tracked status to
installed; failure sets it to failed and pushes the stored task back onto
the tail of the queue. -/
def handleInstallationStatus (st : CoordState) (tid : String) (success : Bool) :
    CoordState × List CEmit :=
  match mapGet st.taskStatuses tid with
  | none => (st, [])
  | some ts =>
    if success then
      ({ st with
          taskStatuses := mapSet st.taskStatuses tid { ts with status := TStatus.installed } },
       [])
    else
      ({ st with
          taskStatuses := mapSet st.taskStatuses tid { ts with status := TStatus.failed },
          tasks := st.tasks ++ [ts.task] },
       [])

/-- The forEach predicate of the disconnect handler: entries assigned to
the disconnecting worker and not completed are re-queued and deleted. -/
def requeued (sid : String) (p : String × TaskStatus) : Bool :=
  decide (p.2.assignedTo = sid) && !(decide (p.2.status = TStatus.completed))

/-- The disconnect handler: delete the worker record, push the stored task
of every matching entry onto the queue (in table order), and delete those
entries. -/
def handleDisconnect (st : CoordState) (sid : String) : CoordState × List CEmit :=
  ({ st with
      workers := mapDelete st.workers sid,
      tasks := st.tasks ++ (st.taskStatuses.filter (requeued sid)).map (fun p => p.2.task),
      taskStatuses := st.taskStatuses.filter (fun p => !requeued sid p) },
   [])

/-- Union the announced types into the stored capability list, preserving
order, as the forEach in the notifyReady handler does. -/
def mergeTypes (cur : List String) : List String → List String
  | [] => cur
  | t :: rest => mergeTypes (if cur.contains t then cur else cur ++ [t]) rest

/-- One coordinator step: dispatch an event to its handler. -/
def stepCoord (gen : TaskGen) (st : CoordState) : CEvent → CoordState × List CEmit
  | CEvent.connect sid =>
    ({ st with workers := mapSet st.workers sid ⟨sid, [], false⟩ }, [])
  | CEvent.registerCapabilities sid tts =>
    (match mapGet st.workers sid with
     | some w =>
       { st with workers := mapSet st.workers sid { w with taskTypes := tts } }
     | none => st, [])
  | CEvent.notifyReady sid tts =>
    (match mapGet st.workers sid with
     | some w =>
       { st with
           workers :=
             mapSet st.workers sid
               { w with taskTypes := mergeTypes w.taskTypes tts, isReady := true } }
     | none => st, [])
  | CEvent.requestTask sid => handleRequestTask gen st sid
  | CEvent.taskCompleted sid d => handleTaskCompleted st sid d
  | CEvent.installationStatus _ tid success => handleInstallationStatus st tid success
  | CEvent.disconnect sid => handleDisconnect st sid
  | CEvent.addTask t =>
    ({ st with
        tasks := st.tasks ++ [t],
        taskStatuses := mapSet st.taskStatuses t.taskId ⟨t, "", TStatus.pending⟩ },
     [])

/-- Run the coordinator over a sequence of events, concatenating emissions. -/
def runCoord (gen : TaskGen) (st : CoordState) : List CEvent → CoordState × List CEmit
  | [] => (st, [])
  | e :: rest =>
    let step := stepCoord gen st e
    let next := runCoord gen step.1 rest
    (next.1, step.2 ++ next.2)

/-- Tracked status of a task identifier, if any. -/
def statusOf (st : CoordState) (tid : String) : Option TStatus :=
  (mapGet st.taskStatuses tid).map TaskStatus.status

/-- The workers recorded as holding a task with status installed.  The
status table associates one record to a task identifier, so this list is
structurally of length at most one. -/
def installedAssignees (st : CoordState) (tid : String) : List String :=
  match mapGet st.taskStatuses tid with
  | some ts => if ts.status = TStatus.installed then [ts.assignedTo] else []
  | none => []

/-- Events the worker client reacts to.  An assignTask event carries the
outcome of the two worker-side phases: `setup` is the result of
setupDynamicTask (error = throw, carrying the error message) and `exec`
the result of executeDynamicTask (error = throw). -/
inductive WEvent where
  | connect
  | assignTask (task : DynamicTask) (setup : Except String Unit) (exec : Except String String)
  | noTask
  | disconnect
  | connectError
  deriving Repr

/-- Messages the worker client emits to the coordinator. -/
inductive WEmit where
  | registerCapabilities (taskTypes : List String)
  | notifyReady (taskTypes : List String)
  | requestTask
  | installationStatus (taskId : String) (success : Bool) (error : Option String)
  | taskCompleted (taskId : String) (isError : Bool)
  deriving DecidableEq, Repr

/-- The JavaScript expression task.taskId || the literal N/A. -/
def taskIdOr (t : DynamicTask) : String :=
  if t.taskId = "" then "N/A" else t.taskId

/-- The assignTask handler of the worker client.  On setup throw the catch
block reports installationStatus failure then taskCompleted with an error
result; on setup success it reports installationStatus success, then either
taskCompleted with the execution result, or (if execution throws) the same
catch block.  The finally block emits requestTask in every case. -/
def handleAssignTask (t : DynamicTask) (setup : Except String Unit)
    (exec : Except String String) : List (Nat × WEmit) :=
  (match setup with
   | Except.error e =>
     [(0, WEmit.installationStatus (taskIdOr t) false (some e)),
      (0, WEmit.taskCompleted (taskIdOr t) true)]
   | Except.ok _ =>
     (0, WEmit.installationStatus t.taskId true none) ::
     (match exec with
      | Except.ok _ => [(0, WEmit.taskCompleted (taskIdOr t) false)]
      | Except.error e =>
        [(0, WEmit.installationStatus (taskIdOr t) false (some e)),
         (0, WEmit.taskCompleted (taskIdOr t) true)]))
  ++ [(0, WEmit.requestTask)]

/-- The worker client's handlers, parametrized by its configured task
types.  Each emission is tagged with the setTimeout delay it is issued
under: 0 for immediate, 10000 for the noTask backoff. -/
def workerHandle (caps : List String) : WEvent → List (Nat × WEmit)
  | WEvent.connect =>
    [(0, WEmit.registerCapabilities caps),
     (0, WEmit.notifyReady caps),
     (0, WEmit.requestTask)]
  | WEvent.assignTask t setup exec => handleAssignTask t setup exec
  | WEvent.noTask =>
    if caps.isEmpty then []
    else
      [(10000, WEmit.registerCapabilities caps),
       (10000, WEmit.notifyReady caps)]
  | WEvent.disconnect => []
  | WEvent.connectError => []

/-- Spec-side eligibility of a task for a worker, written after the
specification: the task's taskType is in the worker's capability set and
its tracked status is pending. -/
def specEligible (caps : List String) (sts : List (String × TaskStatus))
    (t : DynamicTask) : Bool :=
  decide (t.taskType ∈ caps) &&
    decide ((mapGet sts t.taskId).map TaskStatus.status = some TStatus.pending)

/-- Spec-side scan: walk the queue in insertion order, return the first
task satisfying the predicate together with the queue with exactly that
task removed; every non-matching task stays in place. -/
def scanSplit (p : DynamicTask → Bool) :
    List DynamicTask → Option (DynamicTask × List DynamicTask)
  | [] => none
  | t :: rest =>
    if p t then some (t, rest)
    else
      match scanSplit p rest with
      | none => none
      | some (x, r) => some (x, t :: r)

/-- Assignment algorithm as the specification words it: reject ineligible
workers with noTask; refill from the generator when the queue is empty;
take the first task in insertion order whose type the worker can run and
whose tracked status is pending; emit noTask when there is none, otherwise
remove it from the queue, emit assignTask, and record status installed
with assignedTo this worker. -/
def requestTaskSpec (gen : TaskGen) (st : CoordState) (sid : String) :
    CoordState × List CEmit :=
  if st.poisoned then (st, [])
  else
    match mapGet st.workers sid with
    | none => (st, [CEmit.noTask sid])
    | some w =>
      if w.isReady = false ∨ w.taskTypes = [] then (st, [CEmit.noTask sid])
      else
        let refill := if st.tasks = [] then gooseTasks gen st else (st, true)
        let st1 := refill.1
        if refill.2 = false then ({ st1 with poisoned := true }, [])
        else
          match scanSplit (specEligible w.taskTypes st1.taskStatuses) st1.tasks with
          | none => (st1, [CEmit.noTask sid])
          | some (t, rest) =>
            ({ st1 with
                tasks := rest,
                taskStatuses :=
                  mapSet st1.taskStatuses t.taskId ⟨t, sid, TStatus.installed⟩ },
             [CEmit.assignTask sid t])

/-- Worker events are every socket event of the coordinator except the
HTTP/appendTask ingestion path. -/
def isWorkerEvent : CEvent → Bool
  | CEvent.addTask _ => false
  | _ => true

/-- The keys of an association list are pairwise distinct.  This holds for
every table the coordinator builds, since JS Map.set updates in place. -/
def keysNodup {κ α : Type} [DecidableEq κ] (l : List (κ × α)) : Prop :=
  (l.map Prod.fst).Nodup

/-- Every key of the handled-results map is a string.  This holds for the
map the coordinator builds, since only taskId strings are ever set. -/
def strKeysOnly (l : List (JsKey × Bool)) : Bool :=
  l.all fun p =>
    match p.1 with
    | JsKey.str _ => true
    | JsKey.obj _ => false

/-- Concrete scenario: a task is assigned to worker A, A disconnects, and
a second eligible worker B then requests a task. -/
def disconnectScenario : List CEvent :=
  [CEvent.addTask ⟨"t1", "x"⟩, CEvent.connect "A",
   CEvent.registerCapabilities "A" ["x"], CEvent.notifyReady "A" ["x"],
   CEvent.requestTask "A", CEvent.disconnect "A", CEvent.connect "B",
   CEvent.registerCapabilities "B" ["x"], CEvent.notifyReady "B" ["x"],
   CEvent.requestTask "B"]

/-- Concrete scenario: a task is assigned to worker A and its installation
is reported failed. -/
def installFailureScenario : List CEvent :=
  [CEvent.addTask ⟨"t1", "x"⟩, CEvent.connect "A",
   CEvent.registerCapabilities "A" ["x"], CEvent.notifyReady "A" ["x"],
   CEvent.requestTask "A", CEvent.installationStatus "A" "t1" false]

/-- Concrete scenario: the same completion report (two distinct event
payload objects carrying the same taskId) is delivered twice. -/
def duplicateResultScenario : List CEvent :=
  [CEvent.taskCompleted "w" ⟨1, "t1"⟩, CEvent.taskCompleted "w" ⟨2, "t1"⟩]

/-- Concrete scenario: an eligible worker requests twice while the
configured generator always throws. -/
def throwingGenScenario : List CEvent :=
  [CEvent.connect "A", CEvent.registerCapabilities "A" ["x"],
   CEvent.notifyReady "A" ["x"], CEvent.requestTask "A",
   CEvent.requestTask "A"]

theorem mapGet_mapSet_self {κ α : Type} [DecidableEq κ]
    (m : List (κ × α)) (k : κ) (v : α) :
    mapGet (mapSet m k v) k = some v := by
  induction m with
  | nil => simp [mapGet, mapSet]
  | cons p rest ih =>
    obtain ⟨k1, v1⟩ := p
    by_cases h : k1 = k
    · simp [mapGet, mapSet, h]
    · simp [mapGet, mapSet, h, ih]

theorem mapGet_mapSet_ne {κ α : Type} [DecidableEq κ]
    (m : List (κ × α)) (k k2 : κ) (v : α) (h : k ≠ k2) :
    mapGet (mapSet m k v) k2 = mapGet m k2 := by
  induction m with
  | nil => simp [mapGet, mapSet, h]
  | cons p rest ih =>
    obtain ⟨k1, v1⟩ := p
    by_cases h1 : k1 = k
    · subst h1
      simp [mapGet, mapSet, h]
    · simp only [mapSet, if_neg h1]
      by_cases h2 : k1 = k2
      · simp [mapGet, h2]
      · simp [mapGet, h2, ih]

theorem scanSplit_eq_findIndex (p : DynamicTask → Bool) (l : List DynamicTask) :
    scanSplit p l =
      match findIndex p l with
      | none => none
      | some i =>
        match elemAt l i with
        | none => none
        | some t => some (t, spliceOut l i) := by
  induction l with
  | nil => simp [scanSplit, findIndex]
  | cons t rest ih =>
    by_cases hp : p t
    · simp [scanSplit, findIndex, hp, elemAt, spliceOut]
    · simp only [scanSplit, findIndex, hp, if_false, Bool.false_eq_true]
      cases hf : findIndex p rest with
      | none =>
        rw [hf] at ih
        simp [ih]
      | some j =>
        rw [hf] at ih
        cases he : elemAt rest j with
        | none =>
          simp [he] at ih
          simp [ih, elemAt, he]
        | some x =>
          simp [he] at ih
          simp [ih, elemAt, he, spliceOut]

theorem specEligible_eq_suitable (caps : List String)
    (sts : List (String × TaskStatus)) (t : DynamicTask) :
    specEligible caps sts t = suitable caps sts t := by
  unfold specEligible suitable
  have hc : caps.contains t.taskType = decide (t.taskType ∈ caps) := by
    by_cases hm : t.taskType ∈ caps
    · simp [hm]
    · simp [hm]
  rw [hc]
  cases hs : mapGet sts t.taskId with
  | none => simp
  | some ts =>
    by_cases hst : ts.status = TStatus.pending
    · simp [hst]
    · simp [hst]

theorem installedAssignees_length (st : CoordState) (tid : String) :
    (installedAssignees st tid).length ≤ 1 := by
  unfold installedAssignees
  cases mapGet st.taskStatuses tid with
  | none => simp
  | some ts =>
    by_cases h : ts.status = TStatus.installed
    · simp [h]
    · simp [h]

/-- C1: the status table keys assignment by task identifier, so at most
one worker is ever recorded as assignedTo with status installed; and when
two ready, capable workers both request while a single matching pending
task is queued, the first request (the promiseTrain serializes them) gets
assignTask with the task, the second gets noTask, and the task ends
assigned to the first worker with status installed. -/
theorem no_double_assignment (st : CoordState) (w1 w2 : String)
    (wi1 wi2 : WorkerInfo) (t : DynamicTask) (ts : TaskStatus)
    (hp : st.poisoned = false)
    (_hne : w1 ≠ w2)
    (hw1 : mapGet st.workers w1 = some wi1)
    (hw2 : mapGet st.workers w2 = some wi2)
    (hr1 : wi1.isReady = true) (hr2 : wi2.isReady = true)
    (hc1 : wi1.taskTypes.contains t.taskType = true)
    (hc2 : wi2.taskTypes.contains t.taskType = true)
    (htasks : st.tasks = [t])
    (hts : mapGet st.taskStatuses t.taskId = some ts)
    (hpend : ts.status = TStatus.pending) :
    (runCoord none st [CEvent.requestTask w1, CEvent.requestTask w2]).2
      = [CEmit.assignTask w1 t, CEmit.noTask w2]
    ∧ mapGet (runCoord none st
        [CEvent.requestTask w1, CEvent.requestTask w2]).1.taskStatuses t.taskId
      = some ⟨t, w1, TStatus.installed⟩
    ∧ ∀ tid, (installedAssignees
        (runCoord none st [CEvent.requestTask w1, CEvent.requestTask w2]).1 tid).length
      ≤ 1 := by
  have hne1 : wi1.taskTypes.isEmpty = false := by
    cases h : wi1.taskTypes with
    | nil => rw [h] at hc1; simp [List.contains] at hc1
    | cons a l => rfl
  have hne2 : wi2.taskTypes.isEmpty = false := by
    cases h : wi2.taskTypes with
    | nil => rw [h] at hc2; simp [List.contains] at hc2
    | cons a l => rfl
  have hm1 : t.taskType ∈ wi1.taskTypes := by
    simpa using hc1
  have hsuit : suitable wi1.taskTypes st.taskStatuses t = true := by
    simp [suitable, hm1, hts, hpend]
  have hstep1 : stepCoord none st (CEvent.requestTask w1)
      = ({ st with tasks := [], taskStatuses := mapSet st.taskStatuses t.taskId ⟨t, w1, TStatus.installed⟩ }, [CEmit.assignTask w1 t]) := by
    simp [stepCoord, handleRequestTask, hp, hw1, hr1, hne1, htasks, findIndex, hsuit,
      elemAt, spliceOut]
  have hstep2 : stepCoord none
      ({ st with tasks := [], taskStatuses := mapSet st.taskStatuses t.taskId ⟨t, w1, TStatus.installed⟩ } : CoordState)
      (CEvent.requestTask w2)
      = ({ st with tasks := [], taskStatuses := mapSet st.taskStatuses t.taskId ⟨t, w1, TStatus.installed⟩ }, [CEmit.noTask w2]) := by
    simp [stepCoord, handleRequestTask, hp, hw2, hr2, hne2, gooseTasks, findIndex]
  refine ⟨?_, ?_, ?_⟩
  · simp [runCoord, hstep1, hstep2]
  · simp [runCoord, hstep1, hstep2, mapGet_mapSet_self]
  · intro tid
    exact installedAssignees_length _ tid

/-- C1 witness: a concrete coordinator with a single pending task and two
ready workers able to run it. -/
theorem no_double_assignment_witness :
    (runCoord none
        { initCoord with
            tasks := [DynamicTask.mk "t1" "x"],
            workers := [("A", WorkerInfo.mk "A" ["x"] true),
                        ("B", WorkerInfo.mk "B" ["x"] true)],
            taskStatuses := [("t1", TaskStatus.mk (DynamicTask.mk "t1" "x") "" TStatus.pending)] }
        [CEvent.requestTask "A", CEvent.requestTask "B"]).2
      = [CEmit.assignTask "A" (DynamicTask.mk "t1" "x"), CEmit.noTask "B"]
    ∧ mapGet (runCoord none
        { initCoord with
            tasks := [DynamicTask.mk "t1" "x"],
            workers := [("A", WorkerInfo.mk "A" ["x"] true),
                        ("B", WorkerInfo.mk "B" ["x"] true)],
            taskStatuses := [("t1", TaskStatus.mk (DynamicTask.mk "t1" "x") "" TStatus.pending)] }
        [CEvent.requestTask "A", CEvent.requestTask "B"]).1.taskStatuses "t1"
      = some (TaskStatus.mk (DynamicTask.mk "t1" "x") "A" TStatus.installed)
    ∧ (installedAssignees (runCoord none
        { initCoord with
            tasks := [DynamicTask.mk "t1" "x"],
            workers := [("A", WorkerInfo.mk "A" ["x"] true),
                        ("B", WorkerInfo.mk "B" ["x"] true)],
            taskStatuses := [("t1", TaskStatus.mk (DynamicTask.mk "t1" "x") "" TStatus.pending)] }
        [CEvent.requestTask "A", CEvent.requestTask "B"]).1 "t1").length ≤ 1 := by
  obtain ⟨h1, h2, h3⟩ := no_double_assignment
    { initCoord with
        tasks := [DynamicTask.mk "t1" "x"],
        workers := [("A", WorkerInfo.mk "A" ["x"] true),
                    ("B", WorkerInfo.mk "B" ["x"] true)],
        taskStatuses := [("t1", TaskStatus.mk (DynamicTask.mk "t1" "x") "" TStatus.pending)] }
    "A" "B" (WorkerInfo.mk "A" ["x"] true) (WorkerInfo.mk "B" ["x"] true)
    (DynamicTask.mk "t1" "x") (TaskStatus.mk (DynamicTask.mk "t1" "x") "" TStatus.pending)
    (by decide) (by decide) (by decide) (by decide) (by decide) (by decide)
    (by decide) (by decide) (by decide) (by decide) (by decide)
  exact ⟨h1, h2, h3 "t1"⟩

/-- C2: on worker disconnect, every non-completed task assigned to it is
pushed back onto the queue, its TaskStatus entry and the worker record are
deleted; but a subsequent requestTask from another eligible worker does
NOT return the task, because the matching scan requires a tracked status
of pending and the tracking entry is gone: the other worker receives
noTask while the task sits in the queue. -/
theorem disconnect_requeue_unassignable :
    (runCoord none initCoord disconnectScenario).2
        = [CEmit.assignTask "A" ⟨"t1", "x"⟩, CEmit.noTask "B"]
      ∧ (runCoord none initCoord disconnectScenario).1.tasks = [⟨"t1", "x"⟩]
      ∧ mapGet (runCoord none initCoord disconnectScenario).1.taskStatuses "t1" = none
      ∧ mapGet (runCoord none initCoord disconnectScenario).1.workers "A" = none := by
  decide

/-- C3: installationStatus failure sets the tracked status to failed and
pushes the task back onto the tail of the queue; but a subsequent
requestTask from a ready, capable worker does NOT receive it, because the
matching scan requires tracked status pending and the status is failed:
the worker receives noTask while the task sits in the queue. -/
theorem install_failure_requeue_unassignable :
    (runCoord none initCoord installFailureScenario).1.tasks = [⟨"t1", "x"⟩]
      ∧ statusOf (runCoord none initCoord installFailureScenario).1 "t1"
          = some TStatus.failed
      ∧ (runCoord none initCoord (installFailureScenario ++ [CEvent.requestTask "A"])).2
          = [CEmit.assignTask "A" ⟨"t1", "x"⟩, CEmit.noTask "A"]
      ∧ statusOf (runCoord none initCoord
            (installFailureScenario ++ [CEvent.requestTask "A"])).1 "t1"
          = some TStatus.failed
      ∧ (runCoord none initCoord
            (installFailureScenario ++ [CEvent.requestTask "A"])).1.tasks
          = [⟨"t1", "x"⟩] := by
  decide

/-- C4: the requestTask handler implements exactly the specified
assignment algorithm: noTask for an unknown, not-ready or capability-less
worker; generator refill only on an empty queue; first-in-insertion-order
dispatch among tasks whose type the worker can run and whose tracked
status is pending, leaving non-matching tasks in place; noTask when no
task matches; otherwise removal from the queue, assignTask, and an
optimistic installed status with assignedTo this worker. -/
theorem requestTask_matches_spec (gen : TaskGen) (st : CoordState) (sid : String)
    (hp : st.poisoned = false) :
    handleRequestTask gen st sid = requestTaskSpec gen st sid := by
  have hfun : ∀ (caps : List String) (sts : List (String × TaskStatus)),
      specEligible caps sts = suitable caps sts :=
    fun caps sts => funext (specEligible_eq_suitable caps sts)
  unfold handleRequestTask requestTaskSpec
  simp only [hp, Bool.false_eq_true, if_false]
  split
  · rfl
  · rename_i w hw
    by_cases hg : w.isReady = false ∨ w.taskTypes = []
    · have hb : (!w.isReady || w.taskTypes.isEmpty) = true := by
        rcases hg with h | h
        · simp [h]
        · simp [h]
      rw [if_pos hg, hb]
      simp
    · have hb : (!w.isReady || w.taskTypes.isEmpty) = false := by
        rcases not_or.mp hg with ⟨h1, h2⟩
        have hri : w.isReady = true := by
          cases hx : w.isReady
          · exact absurd hx h1
          · rfl
        have hty : w.taskTypes.isEmpty = false := by
          cases hx : w.taskTypes with
          | nil => exact absurd hx h2
          | cons a l => rfl
        simp [hri, hty]
      rw [if_neg hg, hb]
      simp only [Bool.false_eq_true, if_false]
      have hrefill : (if st.tasks.isEmpty then gooseTasks gen st else (st, true))
          = (if st.tasks = [] then gooseTasks gen st else (st, true)) := by
        cases st.tasks <;> simp
      rw [hrefill]
      generalize (if st.tasks = [] then gooseTasks gen st else (st, true)) = R
      obtain ⟨st1, ok⟩ := R
      cases ok with
      | false => simp
      | true =>
        simp only [Bool.not_true, Bool.false_eq_true, if_false, Bool.true_eq_false]
        rw [hfun, scanSplit_eq_findIndex]
        cases hf : findIndex (suitable w.taskTypes st1.taskStatuses) st1.tasks with
        | none => rfl
        | some i =>
          cases he : elemAt st1.tasks i with
          | none => simp [he]
          | some t => simp [he]

/-- C4 witness: a concrete eligible worker and a queue whose first task
matches. -/
theorem requestTask_matches_spec_witness :
    handleRequestTask none
      { initCoord with
          tasks := [DynamicTask.mk "t1" "x"],
          workers := [("A", WorkerInfo.mk "A" ["x"] true)],
          taskStatuses := [("t1", TaskStatus.mk (DynamicTask.mk "t1" "x") "" TStatus.pending)] }
      "A"
    = requestTaskSpec none
      { initCoord with
          tasks := [DynamicTask.mk "t1" "x"],
          workers := [("A", WorkerInfo.mk "A" ["x"] true)],
          taskStatuses := [("t1", TaskStatus.mk (DynamicTask.mk "t1" "x") "" TStatus.pending)] }
      "A" :=
  requestTask_matches_spec none
    { initCoord with
        tasks := [DynamicTask.mk "t1" "x"],
        workers := [("A", WorkerInfo.mk "A" ["x"] true)],
        taskStatuses := [("t1", TaskStatus.mk (DynamicTask.mk "t1" "x") "" TStatus.pending)] }
    "A" (by decide)

/-- C5: delivering taskCompleted for the same taskId twice makes the
onResult callback observe that taskId twice, not at most once: the filter
in handleTaskResults probes the handled map with the result object itself
instead of its taskId, so the probe never hits the string keys the map
holds, even though the taskId was marked handled after the first call. -/
theorem duplicate_result_delivered_twice :
    (runCoord none initCoord duplicateResultScenario).1.observed
        = [[⟨1, "t1"⟩], [⟨2, "t1"⟩]]
      ∧ (runCoord none initCoord duplicateResultScenario).1.taskStatusHandled
          = [(JsKey.str "t1", true)]
      ∧ ((runCoord none initCoord duplicateResultScenario).1.observed.flatten.countP
            fun x => x.taskId == "t1") = 2 := by
  decide

/-- C6 counterexample: with a configured generator that throws, an
eligible worker's requestTask on an empty queue yields NO reply at all
(not noTask), the shared promise chain is left rejected, and a subsequent
requestTask is not processed either: the whole run emits nothing. -/
theorem generator_throw_silences_coordinator :
    (runCoord (some fun _ => Except.error "boom") initCoord throwingGenScenario).2 = []
    ∧ (runCoord (some fun _ => Except.error "boom") initCoord
        throwingGenScenario).1.poisoned = true := by
  decide

theorem mapGet_obj_none (l : List (JsKey × Bool)) (r : Nat)
    (h : strKeysOnly l = true) : mapGet l (JsKey.obj r) = none := by
  induction l with
  | nil => rfl
  | cons p rest ih =>
    obtain ⟨k, v⟩ := p
    cases k with
    | str s =>
      have hrest : strKeysOnly rest = true := by
        simpa [strKeysOnly] using (by simpa [strKeysOnly] using h : _)
      simp [mapGet, ih hrest]
    | obj r2 => simp [strKeysOnly] at h

/-- C8: the taskCompleted handler applies a report unconditionally: with
no check that the sender is the tracked assignee, the tracked status (if
one exists for the reported taskId) is set to completed with its task and
assignee preserved and independently of the reporting socket, the result
is always forwarded to result handling (the onResult callback observes
exactly this one result), and the handler replies with a requestTask
message; the handler is total, so a stale or duplicate report never
crashes the coordinator. -/
theorem taskCompleted_unconditional (gen : TaskGen) (st : CoordState)
    (sid : String) (d : TaskResult)
    (hstr : strKeysOnly st.taskStatusHandled = true) :
    (stepCoord gen st (CEvent.taskCompleted sid d)).1.taskStatuses
      = (match mapGet st.taskStatuses d.taskId with
         | some ts =>
           mapSet st.taskStatuses d.taskId ⟨ts.task, ts.assignedTo, TStatus.completed⟩
         | none => st.taskStatuses)
    ∧ (stepCoord gen st (CEvent.taskCompleted sid d)).1.observed = st.observed ++ [[d]]
    ∧ (stepCoord gen st (CEvent.taskCompleted sid d)).2 = [CEmit.requestTaskPing sid] := by
  have hkeep : notYetHandled st.taskStatusHandled d = true := by
    simp [notYetHandled, mapGet_obj_none _ _ hstr]
  refine ⟨?_, ?_, ?_⟩ <;>
    cases hts : mapGet st.taskStatuses d.taskId <;>
      simp [stepCoord, handleTaskCompleted, handleTaskResults, hts, hkeep]

/-- C8 witness: a report from socket A for a task tracked as assigned to
worker B is applied anyway: the status flips to completed with assignee B
preserved and the result is forwarded. -/
theorem taskCompleted_unconditional_witness :
    (stepCoord none
        { initCoord with taskStatuses := [("t1", TaskStatus.mk (DynamicTask.mk "t1" "x") "B" TStatus.installed)] }
        (CEvent.taskCompleted "A" (TaskResult.mk 5 "t1"))).1.taskStatuses
      = [("t1", TaskStatus.mk (DynamicTask.mk "t1" "x") "B" TStatus.completed)]
    ∧ (stepCoord none
        { initCoord with taskStatuses := [("t1", TaskStatus.mk (DynamicTask.mk "t1" "x") "B" TStatus.installed)] }
        (CEvent.taskCompleted "A" (TaskResult.mk 5 "t1"))).1.observed
      = [[TaskResult.mk 5 "t1"]]
    ∧ (stepCoord none
        { initCoord with taskStatuses := [("t1", TaskStatus.mk (DynamicTask.mk "t1" "x") "B" TStatus.installed)] }
        (CEvent.taskCompleted "A" (TaskResult.mk 5 "t1"))).2
      = [CEmit.requestTaskPing "A"] := by
  obtain ⟨h1, h2, h3⟩ := taskCompleted_unconditional none
    { initCoord with taskStatuses := [("t1", TaskStatus.mk (DynamicTask.mk "t1" "x") "B" TStatus.installed)] }
    "A" (TaskResult.mk 5 "t1") (by decide)
  refine ⟨?_, ?_, h3⟩
  · rw [h1]
    decide
  · rw [h2]
    decide

/-- C6 amended: when the configured task generator throws during the
empty-queue refill triggered by an eligible worker's requestTask, the
rejection is not caught anywhere: the requesting worker receives no reply
at all (in particular no noTask), the coordinator's serialized promise
chain is left permanently rejected, and every subsequent requestTask from
any worker is skipped without reply or state change. -/
theorem generator_throw_poisons_train (g : Nat → Except String (List DynamicTask))
    (st : CoordState) (sid sid2 : String) (w : WorkerInfo) (msg : String)
    (hp : st.poisoned = false)
    (hw : mapGet st.workers sid = some w)
    (hr : w.isReady = true)
    (hc : w.taskTypes ≠ [])
    (ht : st.tasks = [])
    (hg : g st.genCalls = Except.error msg) :
    (stepCoord (some g) st (CEvent.requestTask sid)).2 = []
    ∧ (stepCoord (some g) st (CEvent.requestTask sid)).1.poisoned = true
    ∧ stepCoord (some g) (stepCoord (some g) st (CEvent.requestTask sid)).1
        (CEvent.requestTask sid2)
      = ((stepCoord (some g) st (CEvent.requestTask sid)).1, []) := by
  have hempty : w.taskTypes.isEmpty = false := by
    cases hcc : w.taskTypes with
    | nil => exact absurd hcc hc
    | cons a l => rfl
  have hstep : stepCoord (some g) st (CEvent.requestTask sid)
      = ({ st with genCalls := st.genCalls + 1, poisoned := true }, []) := by
    simp [stepCoord, handleRequestTask, hp, hw, hr, hempty, ht, gooseTasks, hg]
  refine ⟨by rw [hstep], by rw [hstep], ?_⟩
  rw [hstep]
  simp [stepCoord, handleRequestTask]

/-- C6 amended, witness: a concrete eligible worker, empty queue and a
throwing generator exercise every hypothesis of the amended theorem. -/
theorem generator_throw_poisons_train_witness :
    (stepCoord (some fun _ => Except.error "boom")
        { initCoord with workers := [("A", WorkerInfo.mk "A" ["x"] true)] }
        (CEvent.requestTask "A")).2 = []
    ∧ (stepCoord (some fun _ => Except.error "boom")
        { initCoord with workers := [("A", WorkerInfo.mk "A" ["x"] true)] }
        (CEvent.requestTask "A")).1.poisoned = true
    ∧ stepCoord (some fun _ => Except.error "boom")
        (stepCoord (some fun _ => Except.error "boom")
          { initCoord with workers := [("A", WorkerInfo.mk "A" ["x"] true)] }
          (CEvent.requestTask "A")).1
        (CEvent.requestTask "B")
      = ((stepCoord (some fun _ => Except.error "boom")
          { initCoord with workers := [("A", WorkerInfo.mk "A" ["x"] true)] }
          (CEvent.requestTask "A")).1, []) :=
  generator_throw_poisons_train (fun _ => Except.error "boom")
    { initCoord with workers := [("A", WorkerInfo.mk "A" ["x"] true)] }
    "A" "B" (WorkerInfo.mk "A" ["x"] true) "boom"
    (by decide) (by decide) (by decide) (by decide) (by decide) rfl

/-- C7 counterexample: the transition failed to completed does occur: a
task whose installation was reported failed and which then receives
taskCompleted moves from failed to completed, contradicting the claim
that pending, installed, completed, failed admit no such edge. -/
theorem failed_then_completed :
    statusOf (runCoord none initCoord
      [CEvent.addTask ⟨"t1", "x"⟩, CEvent.connect "A",
       CEvent.registerCapabilities "A" ["x"], CEvent.notifyReady "A" ["x"],
       CEvent.requestTask "A", CEvent.installationStatus "A" "t1" false]).1 "t1"
        = some TStatus.failed
    ∧ statusOf (runCoord none initCoord
      [CEvent.addTask ⟨"t1", "x"⟩, CEvent.connect "A",
       CEvent.registerCapabilities "A" ["x"], CEvent.notifyReady "A" ["x"],
       CEvent.requestTask "A", CEvent.installationStatus "A" "t1" false,
       CEvent.taskCompleted "A" ⟨1, "t1"⟩]).1 "t1"
        = some TStatus.completed := by
  decide

theorem mapGet_eq_none {κ α : Type} [DecidableEq κ] (l : List (κ × α)) (k : κ)
    (h : k ∉ l.map Prod.fst) : mapGet l k = none := by
  induction l with
  | nil => rfl
  | cons p rest ih =>
    obtain ⟨k1, v1⟩ := p
    simp only [List.map_cons, List.mem_cons, not_or] at h
    obtain ⟨h1, h2⟩ := h
    have hk : k1 ≠ k := fun hk => h1 hk.symm
    simp [mapGet, hk, ih h2]

theorem mapGet_filter_none {κ α : Type} [DecidableEq κ] (p : κ × α → Bool)
    (l : List (κ × α)) (k : κ) (h : mapGet l k = none) :
    mapGet (l.filter p) k = none := by
  induction l with
  | nil => rfl
  | cons q rest ih =>
    obtain ⟨k1, v1⟩ := q
    by_cases hk : k1 = k
    · subst hk
      simp [mapGet] at h
    · simp only [mapGet, if_neg hk] at h
      by_cases hp : p (k1, v1)
      · simp [List.filter_cons, hp, mapGet, hk, ih h]
      · simp [List.filter_cons, hp, ih h]

theorem mapGet_filter_some {κ α : Type} [DecidableEq κ] (p : κ × α → Bool)
    (l : List (κ × α)) (k : κ) (v : α)
    (hnd : keysNodup l) (h : mapGet l k = some v) :
    mapGet (l.filter p) k = if p (k, v) = true then some v else none := by
  induction l with
  | nil => simp [mapGet] at h
  | cons q rest ih =>
    obtain ⟨k1, v1⟩ := q
    have hnd1 : k1 ∉ rest.map Prod.fst := (List.nodup_cons.mp hnd).1
    have hnd2 : keysNodup rest := (List.nodup_cons.mp hnd).2
    by_cases hk : k1 = k
    · subst hk
      have hv : v1 = v := by simpa [mapGet] using h
      subst hv
      by_cases hp : p (k1, v1)
      · simp [List.filter_cons, hp, mapGet]
      · simp only [List.filter_cons, hp, Bool.false_eq_true, if_false]
        rw [mapGet_filter_none p rest k1 (mapGet_eq_none rest k1 hnd1)]
    · have h2 : mapGet rest k = some v := by simpa [mapGet, hk] using h
      by_cases hp : p (k1, v1)
      · simp [List.filter_cons, hp, mapGet, hk, ih hnd2 h2]
      · simp [List.filter_cons, hp, ih hnd2 h2]

theorem findIndex_elemAt_sat (p : DynamicTask → Bool) :
    ∀ (l : List DynamicTask) (i : Nat) (t : DynamicTask),
      findIndex p l = some i → elemAt l i = some t → p t = true := by
  intro l
  induction l with
  | nil =>
    intro i t hf _he
    simp [findIndex] at hf
  | cons a rest ih =>
    intro i t hf he
    by_cases hp : p a
    · simp only [findIndex, hp, if_true] at hf
      obtain rfl : (0 : Nat) = i := Option.some.inj hf
      obtain rfl : a = t := Option.some.inj he
      exact hp
    · simp only [findIndex, hp, Bool.false_eq_true, if_false,
        Option.map_eq_some'] at hf
      obtain ⟨j, hfr, hji⟩ := hf
      subst hji
      exact ih j t hfr he

theorem suitable_pending (caps : List String) (sts : List (String × TaskStatus))
    (t : DynamicTask) (h : suitable caps sts t = true) :
    ∃ ts, mapGet sts t.taskId = some ts ∧ ts.status = TStatus.pending := by
  unfold suitable at h
  cases hts : mapGet sts t.taskId with
  | none =>
    rw [hts] at h
    simp at h
  | some ts =>
    rw [hts] at h
    simp only [Bool.and_eq_true, decide_eq_true_eq] at h
    exact ⟨ts, rfl, h.2⟩

/-- C7 amended: with no task generator configured, a worker event changes
the tracked status of a task identifier only in these ways: assignment
moves a pending task to installed; installationStatus success moves any
current status to installed; installationStatus failure moves any current
status to failed; taskCompleted moves any current status to completed;
disconnect deletes (not resets) tracking entries.  No worker event ever
sets a tracked status back to pending (the failure re-queue leaves the
status failed), and in particular failed to completed and completed to
installed do occur. -/
theorem status_transition_characterization (st : CoordState) (ev : CEvent)
    (tid : String)
    (hwev : isWorkerEvent ev = true)
    (hnd : keysNodup st.taskStatuses) :
    statusOf (stepCoord none st ev).1 tid = statusOf st tid
    ∨ (statusOf (stepCoord none st ev).1 tid = some TStatus.installed
        ∧ statusOf st tid = some TStatus.pending
        ∧ ∃ sid, ev = CEvent.requestTask sid)
    ∨ (statusOf (stepCoord none st ev).1 tid = some TStatus.installed
        ∧ ∃ sid, ev = CEvent.installationStatus sid tid true)
    ∨ (statusOf (stepCoord none st ev).1 tid = some TStatus.failed
        ∧ ∃ sid, ev = CEvent.installationStatus sid tid false)
    ∨ (statusOf (stepCoord none st ev).1 tid = some TStatus.completed
        ∧ ∃ sid d, ev = CEvent.taskCompleted sid d ∧ d.taskId = tid)
    ∨ (statusOf (stepCoord none st ev).1 tid = none
        ∧ statusOf st tid ≠ none
        ∧ ∃ sid, ev = CEvent.disconnect sid) := by
  cases ev with
  | connect sid => exact Or.inl rfl
  | registerCapabilities sid tts =>
    left
    cases hw : mapGet st.workers sid <;> simp [stepCoord, statusOf, hw]
  | notifyReady sid tts =>
    left
    cases hw : mapGet st.workers sid <;> simp [stepCoord, statusOf, hw]
  | addTask t => simp [isWorkerEvent] at hwev
  | requestTask sid =>
    cases hpz : st.poisoned with
    | true =>
      left
      simp [stepCoord, handleRequestTask, hpz]
    | false =>
      cases hw : mapGet st.workers sid with
      | none =>
        left
        simp [stepCoord, handleRequestTask, hpz, hw]
      | some w =>
        cases hb : (!w.isReady || w.taskTypes.isEmpty) with
        | true =>
          left
          simp [stepCoord, handleRequestTask, hpz, hw, hb]
        | false =>
          have hre : (if st.tasks = [] then gooseTasks none st else (st, true))
              = (st, true) := by
            cases st.tasks <;> simp [gooseTasks]
          cases hf : findIndex (suitable w.taskTypes st.taskStatuses) st.tasks with
          | none =>
            left
            simp [stepCoord, handleRequestTask, hpz, hw, hb, hre, hf, statusOf]
          | some i =>
            cases he : elemAt st.tasks i with
            | none =>
              left
              simp [stepCoord, handleRequestTask, hpz, hw, hb, hre, hf, he, statusOf]
            | some t =>
              have hsat := findIndex_elemAt_sat _ st.tasks i t hf he
              obtain ⟨ts, hts, hpend⟩ := suitable_pending _ _ _ hsat
              by_cases htid : t.taskId = tid
              · subst htid
                refine Or.inr (Or.inl ⟨?_, ?_, sid, rfl⟩)
                · simp [stepCoord, handleRequestTask, hpz, hw, hb, hre, hf, he,
                    statusOf, mapGet_mapSet_self]
                · simp [statusOf, hts, hpend]
              · left
                simp [stepCoord, handleRequestTask, hpz, hw, hb, hre, hf, he,
                  statusOf, mapGet_mapSet_ne _ _ _ _ htid]
  | taskCompleted sid d =>
    cases hts : mapGet st.taskStatuses d.taskId with
    | none =>
      left
      simp [stepCoord, handleTaskCompleted, handleTaskResults, hts, statusOf]
    | some ts =>
      by_cases htid : d.taskId = tid
      · subst htid
        refine Or.inr (Or.inr (Or.inr (Or.inr (Or.inl ⟨?_, sid, d, rfl, rfl⟩))))
        simp [stepCoord, handleTaskCompleted, handleTaskResults, hts, statusOf,
          mapGet_mapSet_self]
      · left
        simp [stepCoord, handleTaskCompleted, handleTaskResults, hts, statusOf,
          mapGet_mapSet_ne _ _ _ _ htid]
  | installationStatus sid tid0 success =>
    cases hts : mapGet st.taskStatuses tid0 with
    | none =>
      left
      cases success <;> simp [stepCoord, handleInstallationStatus, hts, statusOf]
    | some ts =>
      by_cases htid : tid0 = tid
      · subst htid
        cases success with
        | true =>
          refine Or.inr (Or.inr (Or.inl ⟨?_, sid, rfl⟩))
          simp [stepCoord, handleInstallationStatus, hts, statusOf, mapGet_mapSet_self]
        | false =>
          refine Or.inr (Or.inr (Or.inr (Or.inl ⟨?_, sid, rfl⟩)))
          simp [stepCoord, handleInstallationStatus, hts, statusOf, mapGet_mapSet_self]
      · left
        cases success <;>
          simp [stepCoord, handleInstallationStatus, hts, statusOf,
            mapGet_mapSet_ne _ _ _ _ htid]
  | disconnect sid =>
    cases hold : mapGet st.taskStatuses tid with
    | none =>
      left
      simp [stepCoord, handleDisconnect, statusOf, hold, mapGet_filter_none _ _ _ hold]
    | some ts =>
      have hfil := mapGet_filter_some (fun p => !requeued sid p)
        st.taskStatuses tid ts hnd hold
      cases hreq : requeued sid (tid, ts) with
      | false =>
        left
        simp [hreq] at hfil
        simp [stepCoord, handleDisconnect, statusOf, hold, hfil]
      | true =>
        refine Or.inr (Or.inr (Or.inr (Or.inr (Or.inr ⟨?_, ?_, sid, rfl⟩))))
        · simp [hreq] at hfil
          simp [stepCoord, handleDisconnect, statusOf, hfil]
        · simp [statusOf, hold]

/-- C7 amended, witness: a late installationStatus success for a task
already completed moves it back to installed, exercising the
unconditional-transition disjunct. -/
theorem status_transition_characterization_witness :
    statusOf (stepCoord none
        { initCoord with taskStatuses := [("t1", TaskStatus.mk (DynamicTask.mk "t1" "x") "A" TStatus.completed)] }
        (CEvent.installationStatus "A" "t1" true)).1 "t1"
      = statusOf
        { initCoord with taskStatuses := [("t1", TaskStatus.mk (DynamicTask.mk "t1" "x") "A" TStatus.completed)] }
        "t1"
    ∨ (statusOf (stepCoord none
        { initCoord with taskStatuses := [("t1", TaskStatus.mk (DynamicTask.mk "t1" "x") "A" TStatus.completed)] }
        (CEvent.installationStatus "A" "t1" true)).1 "t1" = some TStatus.installed
        ∧ statusOf
            { initCoord with taskStatuses := [("t1", TaskStatus.mk (DynamicTask.mk "t1" "x") "A" TStatus.completed)] }
            "t1" = some TStatus.pending
        ∧ ∃ sid, CEvent.installationStatus "A" "t1" true = CEvent.requestTask sid)
    ∨ (statusOf (stepCoord none
        { initCoord with taskStatuses := [("t1", TaskStatus.mk (DynamicTask.mk "t1" "x") "A" TStatus.completed)] }
        (CEvent.installationStatus "A" "t1" true)).1 "t1" = some TStatus.installed
        ∧ ∃ sid, CEvent.installationStatus "A" "t1" true
            = CEvent.installationStatus sid "t1" true)
    ∨ (statusOf (stepCoord none
        { initCoord with taskStatuses := [("t1", TaskStatus.mk (DynamicTask.mk "t1" "x") "A" TStatus.completed)] }
        (CEvent.installationStatus "A" "t1" true)).1 "t1" = some TStatus.failed
        ∧ ∃ sid, CEvent.installationStatus "A" "t1" true
            = CEvent.installationStatus sid "t1" false)
    ∨ (statusOf (stepCoord none
        { initCoord with taskStatuses := [("t1", TaskStatus.mk (DynamicTask.mk "t1" "x") "A" TStatus.completed)] }
        (CEvent.installationStatus "A" "t1" true)).1 "t1" = some TStatus.completed
        ∧ ∃ sid d, CEvent.installationStatus "A" "t1" true = CEvent.taskCompleted sid d
            ∧ d.taskId = "t1")
    ∨ (statusOf (stepCoord none
        { initCoord with taskStatuses := [("t1", TaskStatus.mk (DynamicTask.mk "t1" "x") "A" TStatus.completed)] }
        (CEvent.installationStatus "A" "t1" true)).1 "t1" = none
        ∧ statusOf
            { initCoord with taskStatuses := [("t1", TaskStatus.mk (DynamicTask.mk "t1" "x") "A" TStatus.completed)] }
            "t1" ≠ none
        ∧ ∃ sid, CEvent.installationStatus "A" "t1" true = CEvent.disconnect sid) :=
  status_transition_characterization
    { initCoord with taskStatuses := [("t1", TaskStatus.mk (DynamicTask.mk "t1" "x") "A" TStatus.completed)] }
    (CEvent.installationStatus "A" "t1" true) "t1" (by decide) (by simp [keysNodup])

/-- C9: when the setup phase throws, the worker self-reports by emitting
installationStatus failure with the error, then taskCompleted with an
error result, then requestTask (the finally block), all immediately; and
on every path through the assignTask handler, whatever the setup and
execution outcomes, the handler terminates, emits a taskCompleted, and
its final emission is requestTask. -/
theorem worker_setup_failure_selfreport (t : DynamicTask) (e : String)
    (ex : Except String String) (caps : List String) :
    workerHandle caps (WEvent.assignTask t (Except.error e) ex)
      = [(0, WEmit.installationStatus (taskIdOr t) false (some e)),
         (0, WEmit.taskCompleted (taskIdOr t) true),
         (0, WEmit.requestTask)]
    ∧ ∀ (setup : Except String Unit) (ex2 : Except String String),
        (workerHandle caps (WEvent.assignTask t setup ex2)).getLast?
            = some (0, WEmit.requestTask)
        ∧ ∃ tid isErr, ((0 : Nat), WEmit.taskCompleted tid isErr)
            ∈ workerHandle caps (WEvent.assignTask t setup ex2) := by
  refine ⟨rfl, ?_⟩
  intro setup ex2
  cases setup with
  | error e2 =>
    exact ⟨rfl, taskIdOr t, true, by simp [workerHandle, handleAssignTask]⟩
  | ok u =>
    cases ex2 with
    | ok r =>
      exact ⟨rfl, taskIdOr t, false, by simp [workerHandle, handleAssignTask]⟩
    | error e2 =>
      exact ⟨rfl, taskIdOr t, true, by simp [workerHandle, handleAssignTask]⟩

/-- C10: the worker's noTask handler only re-emits registerCapabilities
and notifyReady after a 10000 ms delay and only when the capability list
is non-empty, and never a requestTask; a requestTask emission arises
solely from the connect handler or from the end of an assignTask
handling. -/
theorem noTask_never_requests (caps : List String) (ev : WEvent) (n : Nat) :
    workerHandle caps WEvent.noTask
      = (if caps.isEmpty then []
         else [(10000, WEmit.registerCapabilities caps),
               (10000, WEmit.notifyReady caps)])
    ∧ ((n, WEmit.requestTask) ∈ workerHandle caps ev
        ↔ (n = 0 ∧ (ev = WEvent.connect
            ∨ ∃ t setup ex, ev = WEvent.assignTask t setup ex))) := by
  refine ⟨rfl, ?_⟩
  cases ev with
  | connect =>
    constructor
    · intro hmem
      simp [workerHandle] at hmem
      exact ⟨hmem, Or.inl rfl⟩
    · rintro ⟨rfl, -⟩
      simp [workerHandle]
  | assignTask t setup ex =>
    constructor
    · intro hmem
      refine ⟨?_, Or.inr ⟨t, setup, ex, rfl⟩⟩
      cases setup with
      | error e2 => simpa [workerHandle, handleAssignTask] using hmem
      | ok u =>
        cases ex with
        | ok r => simpa [workerHandle, handleAssignTask] using hmem
        | error e2 => simpa [workerHandle, handleAssignTask] using hmem
    · rintro ⟨rfl, -⟩
      cases setup with
      | error e2 => simp [workerHandle, handleAssignTask]
      | ok u =>
        cases ex with
        | ok r => simp [workerHandle, handleAssignTask]
        | error e2 => simp [workerHandle, handleAssignTask]
  | noTask =>
    constructor
    · intro hmem
      by_cases hc : caps.isEmpty <;> simp [workerHandle, hc] at hmem
    · rintro ⟨rfl, h | ⟨t, setup, ex, h⟩⟩ <;> exact absurd h (by intro hh; cases hh)
  | disconnect =>
    constructor
    · intro hmem
      simp [workerHandle] at hmem
    · rintro ⟨rfl, h | ⟨t, setup, ex, h⟩⟩ <;> exact absurd h (by intro hh; cases hh)
  | connectError =>
    constructor
    · intro hmem
      simp [workerHandle] at hmem
    · rintro ⟨rfl, h | ⟨t, setup, ex, h⟩⟩ <;> exact absurd h (by intro hh; cases hh)

end Distributo
